import Mathlib

/-!
Verification of the core of the Oberon RISC emulator (schierlm/oberon-risc-emu-enhanced)
against its natural-language specification.

The development shallow-embeds the C sources:
  * `src/disk.c`  — the SPI block-device state machine and the host-filesystem bridge;
  * `src/risc.c`  — the CPU interpreter, the memory/MMIO decoder and the damage tracker.

Machine integers are modelled as `Nat` with explicit `% 2^32` where 32-bit overflow can
occur; C `int` values that can be negative (`tx_idx`, damage coordinates, the hardware
enumerator buffer) are modelled as `Int`.  C strings are modelled as `String`, the host
file system as a predicate `String → Bool` (does this path exist), and a disk image file
as its byte function `Nat → Nat` together with an explicit file position (the C `FILE`
cursor).  Fallible or absent resources are `Option`s.
-/

namespace Oberon

/-- `toInt32 n` reads a 32-bit word (a `Nat` below `2^32`) as C's `(int32_t)n`. -/
def toInt32 (n : Nat) : Int :=
  if n < 2147483648 then (n : Int) else (n : Int) - 4294967296

/-- `ofInt32 z` stores an integer into a 32-bit word, i.e. C's `(uint32_t)z`. -/
def ofInt32 (z : Int) : Nat :=
  (z % 4294967296).toNat

/-- Pointwise update of a word-indexed buffer (a C array store `f[i] = v`). -/
def updf (f : Nat → Nat) (i v : Nat) : Nat → Nat :=
  fun j => if j = i then v else f j

/-! ## The SPI block device (`src/disk.c`) -/

/-- `enum DiskState` of disk.c. -/
inductive DiskState where
  | Command
  | Read
  | Write
  | Writing
  deriving DecidableEq

/-- `struct Disk` of disk.c.  The backing `FILE *` is modelled as the optional byte
content of the image (`file`) together with the stdio file position (`file_pos`),
which `fseek`/`fread`/`fwrite` manipulate. -/
structure Disk where
  state : DiskState
  file : Option (Nat → Nat)
  file_pos : Nat
  offset : Nat
  rx_buf : Nat → Nat
  rx_idx : Nat
  tx_buf : Nat → Nat
  tx_cnt : Int
  tx_idx : Int

/-- Word `i` (little-endian, as assembled by `read_sector` of disk.c) of the 512-byte
block starting at byte position `pos` of image `f`. -/
def sector_read_word (f : Nat → Nat) (pos i : Nat) : Nat :=
  f (pos + 4 * i) ||| (f (pos + 4 * i + 1) <<< 8) |||
    (f (pos + 4 * i + 2) <<< 16) ||| (f (pos + 4 * i + 3) <<< 24)

/-- `disk_new` of disk.c: check for a filesystem-only image (magic `0x9B1EA38D` at the
start of sector 0, read through `read_sector` into `tx_buf`) and set the sector-address
bias accordingly.  `calloc` zeroes every other field. -/
def disk_new (img : Option (Nat → Nat)) : Disk :=
  match img with
  | none =>
    { state := DiskState.Command, file := none, file_pos := 0, offset := 0,
      rx_buf := fun _ => 0, rx_idx := 0, tx_buf := fun _ => 0, tx_cnt := 0, tx_idx := 0 }
  | some f =>
    { state := DiskState.Command, file := some f, file_pos := 512,
      offset := if sector_read_word f 0 0 = 0x9B1EA38D then 0x80002 else 0,
      rx_buf := fun _ => 0, rx_idx := 0,
      tx_buf := fun i => if i < 128 then sector_read_word f 0 i else 0,
      tx_cnt := 0, tx_idx := 0 }

/-- `write_sector` of disk.c (called from the `diskWriting` state): serialise
`rx_buf[0..127]` little-endian into the 512 bytes at the current file position and
advance the position (`fwrite`).  A missing backing file makes it a no-op. -/
def disk_write_sector (d : Disk) : Disk :=
  match d.file with
  | none => d
  | some f =>
    { d with
      file := some (fun p =>
        if d.file_pos ≤ p ∧ p < d.file_pos + 512 then
          (d.rx_buf ((p - d.file_pos) / 4) >>> (p - d.file_pos) % 4 * 8) % 256
        else f p),
      file_pos := d.file_pos + 512 }

/-- `disk_run_command` of disk.c.  `arg` is the big-endian 32-bit argument taken from
`rx_buf[1..4]`; `seek_sector` positions the file at `(arg - offset) * 512` (both
computed in 32-bit arithmetic) and is a no-op without a backing file; `read_sector`
advances the position by 512 bytes (`fread`). -/
def disk_run_command (d : Disk) : Disk :=
  let cmd := d.rx_buf 0
  let arg := ((d.rx_buf 1 <<< 24) % 4294967296) ||| ((d.rx_buf 2 <<< 16) % 4294967296) |||
             ((d.rx_buf 3 <<< 8) % 4294967296) ||| d.rx_buf 4
  let secpos := ((arg + 4294967296 - d.offset) % 4294967296) * 512 % 4294967296
  let d1 :=
    if cmd = 81 then
      let pos := match d.file with
        | none => d.file_pos
        | some _ => secpos
      let tx1 := updf (updf d.tx_buf 0 0) 1 254
      { d with state := DiskState.Read,
               tx_buf := fun i =>
                 if 2 ≤ i ∧ i < 130 then
                   match d.file with
                   | none => 0
                   | some f => sector_read_word f pos (i - 2)
                 else tx1 i,
               tx_cnt := 130,
               file_pos := match d.file with
                 | none => d.file_pos
                 | some _ => pos + 512 }
    else if cmd = 88 then
      { d with state := DiskState.Write,
               file_pos := match d.file with
                 | none => d.file_pos
                 | some _ => secpos,
               tx_buf := updf d.tx_buf 0 0, tx_cnt := 1 }
    else
      { d with tx_buf := updf d.tx_buf 0 0, tx_cnt := 1 }
  { d1 with tx_idx := -1 }

/-- `disk_write` of disk.c: the byte-at-a-time state machine driven by SPI writes. -/
def disk_write (d0 : Disk) (value : Nat) : Disk :=
  let d := { d0 with tx_idx := d0.tx_idx + 1 }
  match d.state with
  | DiskState.Command =>
    if value % 256 ≠ 255 ∨ d.rx_idx ≠ 0 then
      let d1 := { d with rx_buf := updf d.rx_buf d.rx_idx value, rx_idx := d.rx_idx + 1 }
      if d1.rx_idx = 6 then { disk_run_command d1 with rx_idx := 0 } else d1
    else d
  | DiskState.Read =>
    if d.tx_idx = d.tx_cnt then
      { d with state := DiskState.Command, tx_cnt := 0, tx_idx := 0 }
    else d
  | DiskState.Write =>
    if value = 254 then { d with state := DiskState.Writing } else d
  | DiskState.Writing =>
    let d1 := if d.rx_idx < 128 then { d with rx_buf := updf d.rx_buf d.rx_idx value } else d
    let d2 := { d1 with rx_idx := d1.rx_idx + 1 }
    let d3 := if d2.rx_idx = 128 then disk_write_sector d2 else d2
    if d3.rx_idx = 130 then
      { d3 with tx_buf := updf d3.tx_buf 0 5, tx_cnt := 1, tx_idx := -1, rx_idx := 0,
                state := DiskState.Command }
    else d3

/-- `disk_read` of disk.c: SPI reads return `tx_buf[tx_idx]` while it is inside the
armed window and 255 otherwise.  The function mutates nothing, which the returned
(unchanged) state makes explicit. -/
def disk_read (d : Disk) : Nat × Disk :=
  (if 0 ≤ d.tx_idx ∧ d.tx_idx < d.tx_cnt then d.tx_buf d.tx_idx.toNat else 255, d)

/-- A sequence of SPI writes. -/
def disk_writes (d : Disk) : List Nat → Disk
  | [] => d
  | v :: vs => disk_writes (disk_write d v) vs

example : (disk_writes (disk_new none) [81, 0, 0, 0, 1, 255]).state = DiskState.Read := by decide

example : (disk_writes (disk_new none) [81, 0, 0, 0, 1, 255]).tx_cnt = 130 := by decide

/-! ## The host-filesystem bridge (`src/disk.c`, `struct HostFS`) -/

/-- `struct HostFS` of disk.c: the two parallel slot tables (`allocated_names`,
`allocated_full_names`, `NULL` entries are `none`) with their common size, and the
host directory name.  `MAX_HOSTFS_FILES = 4096`, `HOSTFS_SECTOR_MAGIC = 290000000`. -/
structure HostFS where
  dirname : String
  names : Nat → Option String
  fullnames : Nat → Option String
  size : Nat

/-- Pointwise update of a slot table. -/
def updSlot (f : Nat → Option String) (i : Nat) (v : Option String) : Nat → Option String :=
  fun j => if j = i then v else f j

/-- Pointwise update of the host file system (`String → Bool` tells which host paths
exist): create (`b = true`) or remove (`b = false`) path `p`. -/
def updHost (h : String → Bool) (p : String) (b : Bool) : String → Bool :=
  fun q => if q = p then b else h q

/-- C's `name[0] == '~'` on a NUL-terminated string (false for the empty string). -/
def first_char_tilde (s : String) : Bool :=
  match s.data with
  | [] => false
  | c :: _ => c = '~'

/-- The first-match scan of `hostfs_search_file` (and of the duplicate check in
`FileDir.Insert`): the least `j` with `i ≤ j < size` and `names j = some fn`. -/
def findSlotFrom (names : Nat → Option String) (size : Nat) (fn : String) (i : Nat) :
    Option Nat :=
  if _h : i < size then
    if names i = some fn then some i else findSlotFrom names size fn (i + 1)
  else none
termination_by size - i

/-- `hostfs_search_file` of disk.c: return the sector of an already-allocated slot with
this exact name, else allocate a fresh slot (skipping one slot whenever the table size
is a multiple of 29) provided the table is not full, the path `dirname/filename` fits
in 256 bytes (the `snprintf` result check) and the file exists on the host (`access`).
Returns the sector number (0 for "not found") and the updated table. -/
def hostfs_search_file (fs : HostFS) (host : String → Bool) (filename : String) :
    Nat × HostFS :=
  match findSlotFrom fs.names fs.size filename 0 with
  | some i => (290000000 + i, fs)
  | none =>
    let fullname := fs.dirname ++ "/" ++ filename
    if fs.size < 4095 ∧ fs.dirname.length + 1 + filename.length < 256 ∧ host fullname = true
    then
      let sz := if fs.size % 29 = 0 then fs.size + 1 else fs.size
      (290000000 + sz,
       { fs with names := updSlot fs.names sz (some filename),
                 fullnames := updSlot fs.fullnames sz (some fullname),
                 size := sz + 1 })
    else (0, fs)

/-- `hostfs_write` of disk.c, `case 4` (FileDir.Insert), with its two arguments already
decoded from guest RAM: `sector_word = ram[offset+1]` and `fileName` the NUL-terminated
string at `ram[offset+2]`.  `tmpname` stands for the unique `~OvW~XXXXXX` path produced
by `mkstemp` when an existing tracked file must be moved aside (the `mkstemp`/`close`/
`unlink` triple itself leaves the host unchanged).  Permitted only when the referenced
slot holds a tombstone (name starting with `~`); then the tombstone's file is renamed
to `dirname/fileName` and the slot is re-labelled. -/
def hostfs_insert (fs : HostFS) (host : String → Bool) (sector_word : Nat)
    (fileName tmpname : String) : HostFS × (String → Bool) :=
  let sector := (sector_word + 4294967296 - 290000000) % 4294967296
  match fs.names sector with
  | none => (fs, host)
  | some t =>
    if sector < fs.size ∧ first_char_tilde t = true ∧
        fs.dirname.length + 1 + fileName.length < 256 then
      let newFullName := fs.dirname ++ "/" ++ fileName
      let fh :=
        if host newFullName = true then
          match findSlotFrom fs.names fs.size fileName 0 with
          | none => (fs, updHost host newFullName false)
          | some j =>
            ({ fs with names := updSlot fs.names j (some "~OvW"),
                       fullnames := updSlot fs.fullnames j (some tmpname) },
             updHost (updHost host newFullName false) tmpname true)
        else (fs, host)
      let host2 :=
        match fh.1.fullnames sector with
        | none => fh.2
        | some old =>
          if fh.2 old = true then updHost (updHost fh.2 old false) newFullName true
          else fh.2
      ({ fh.1 with names := updSlot fh.1.names sector (some fileName),
                   fullnames := updSlot fh.1.fullnames sector (some newFullName) },
       host2)
    else (fs, host)

/-! ## The CPU interpreter and MMIO decoder (`src/risc.c`)

The model covers the configuration `risc_new` builds, in which no optional external
peripheral (LEDs, serial port, SPI devices, clipboard, host FS, host transfer) is
installed: the corresponding MMIO reads return the documented null defaults (0 or 255)
and the corresponding MMIO writes are no-ops, exactly as the `NULL`-guarded C code
behaves.  Everything else — registers, flags, interrupts, RAM/ROM/palette, the damage
tracker, display modes, the keyboard queue, the debug console and the hardware
enumerator — is carried in the state. -/

/-- `ROMStart` of risc.c (`0xFFFFF800`, a byte address; `PC` uses `ROMStart/4`). -/
def ROMStart : Nat := 0xFFFFF800

/-- `IOStart` of risc.c (`0xFFFFFFC0`). -/
def IOStart : Nat := 0xFFFFFFC0

/-- `PaletteStart` of risc.c (`0xFFFFFB00`). -/
def PaletteStart : Nat := 0xFFFFFB00

/-- `struct DisplayMode` of risc.h. `index` is a `uint32_t`. -/
structure DisplayMode where
  index : Nat
  width : Nat
  height : Nat
  depth : Nat
  deriving DecidableEq

/-- `struct Damage` of risc.h (`int` fields, in word-column/row coordinates). -/
structure Damage where
  x1 : Int
  x2 : Int
  y1 : Int
  y2 : Int
  deriving DecidableEq

/-- `struct RISC` of risc.c (the peripheral handles are left out: none is installed).
`R` is the register file indexed `0..15`; `RAM` and `ROM` are word-indexed; `key_buf`
holds the queued scancodes in FIFO order; `hwenum_buf`/`hwenum_idx` model the hardware
enumerator buffer and cursor (its count is the list length); `dyn_slot0`/`dyn_slot1`
are `dyn_mode_slots[0]` (the dynamic mode) and `dyn_mode_slots[1]` (the size hint). -/
structure RISC where
  PC : Nat
  R : Nat → Nat
  H : Nat
  SPC : Nat
  SZ : Bool
  SN : Bool
  SC : Bool
  SV : Bool
  Z : Bool
  N : Bool
  C : Bool
  V : Bool
  I : Bool
  E : Bool
  P : Bool
  mem_size : Nat
  display_start : Nat
  progress : Nat
  current_tick : Nat
  mouse : Nat
  key_buf : List Nat
  switches : Nat
  spi_selected : Nat
  dyn_slot0 : DisplayMode
  dyn_slot1 : DisplayMode
  modes : List DisplayMode
  current_mode : DisplayMode
  current_mode_span : Nat
  modes_by_depth1 : Nat
  modes_by_depth4 : Nat
  modes_by_depth8 : Nat
  screen_dynsize : Bool
  screen_seamless : Bool
  initial_clock : Nat
  damage : Damage
  hwenum_buf : List Int
  hwenum_idx : Nat
  RAM : Nat → Nat
  ROM : Nat → Nat
  Palette : Nat → Nat
  debug_buf : List Nat

/-- A `uint32_t` decrement (`risc->progress--`). -/
def dec32 (n : Nat) : Nat := (n + 4294967295) % 4294967296

/-- `HW_ENUM_ID(a,b,c,d)` of risc.c. -/
def hwid (a b c d : Char) : Nat :=
  (a.toNat <<< 24) ||| (b.toNat <<< 16) ||| (c.toNat <<< 8) ||| d.toNat

/-- The hardware-enumerator fill (`risc_store_io`, `case 60` of risc.c) for the
no-peripheral configuration: the `risc->leds`, `risc->serial`, `risc->clipboard`,
`risc->hostfs`, `risc->hosttransfer` and `risc->spi[*]` gates are all closed, so the
corresponding records are omitted, exactly as in the C `switch`. -/
def hwenum_fill (s : RISC) (value : Nat) : List Int :=
  if value = 0 then
    [1]
    ++ (if 0 < s.modes_by_depth1 then
          [(hwid 'm' 'V' 'i' 'd' : Int)]
          ++ (if s.screen_dynsize then [(hwid 'm' 'D' 'y' 'n' : Int)] else [])
        else [])
    ++ (if 0 < s.modes_by_depth4 then
          [(hwid '1' '6' 'c' 'V' : Int)]
          ++ (if s.screen_dynsize then [(hwid '1' '6' 'c' 'D' : Int)] else [])
        else [])
    ++ (if 0 < s.modes_by_depth8 then
          [(hwid '8' 'b' 'c' 'V' : Int)]
          ++ (if s.screen_dynsize then [(hwid '8' 'b' 'c' 'D' : Int)] else [])
        else [])
    ++ [(hwid 'T' 'i' 'm' 'r' : Int), (hwid 'S' 'w' 't' 'c' : Int),
        (hwid 'S' 'P' 'I' 'f' : Int), (hwid 'M' 's' 'K' 'b' : Int),
        (hwid 'R' 's' 'e' 't' : Int), (hwid 'v' 'R' 'T' 'C' : Int),
        (hwid 'D' 'b' 'g' 'C' : Int)]
  else if value = hwid 'm' 'V' 'i' 'd' then
    if 0 < s.modes_by_depth1 then
      [(s.modes_by_depth1 : Int), -16]
      ++ ((s.modes.takeWhile (fun m => m.width != 0)).filter (fun m => m.depth == 1)).flatMap
           (fun m => [(m.width : Int), (m.height : Int), ((m.width / 8 : Nat) : Int),
                      (s.display_start : Int)])
    else []
  else if value = hwid 'm' 'D' 'y' 'n' then
    if 0 < s.modes_by_depth1 ∧ s.screen_dynsize then
      [-16, 2048, 2048, 32, 1, -1, (s.display_start : Int), 1]
    else []
  else if value = hwid '1' '6' 'c' 'V' then
    if 0 < s.modes_by_depth4 then
      [(s.modes_by_depth4 : Int), (s.modes_by_depth1 : Int), -16, toInt32 PaletteStart]
      ++ ((s.modes.takeWhile (fun m => m.width != 0)).filter (fun m => m.depth == 4)).flatMap
           (fun m => [(m.width : Int), (m.height : Int), ((m.width / 2 : Nat) : Int),
                      (s.display_start : Int)])
    else []
  else if value = hwid '1' '6' 'c' 'D' then
    if 0 < s.modes_by_depth4 ∧ s.screen_dynsize then
      [-16, toInt32 PaletteStart, 2048, 2048, 32, 1, -1, (s.display_start : Int), 1]
    else []
  else if value = hwid '8' 'b' 'c' 'V' then
    if 0 < s.modes_by_depth8 then
      [(s.modes_by_depth8 : Int), ((s.modes_by_depth1 + s.modes_by_depth4 : Nat) : Int),
       -16, toInt32 PaletteStart]
      ++ ((s.modes.takeWhile (fun m => m.width != 0)).filter (fun m => m.depth == 8)).flatMap
           (fun m => [(m.width : Int), (m.height : Int), (m.width : Int),
                      (s.display_start : Int)])
    else []
  else if value = hwid '8' 'b' 'c' 'D' then
    -- the C gate re-uses modes_by_depth[1] (the 4-bit count) here; preserved as-is
    if 0 < s.modes_by_depth4 ∧ s.screen_dynsize then
      [-16, toInt32 PaletteStart, 2048, 2048, 32, 1, -1, (s.display_start : Int), 1]
    else []
  else if value = hwid 'T' 'i' 'm' 'r' then [-64]
  else if value = hwid 'S' 'w' 't' 'c' then [1, -60]
  else if value = hwid 'S' 'P' 'I' 'f' then [-44, -48]
  else if value = hwid 'M' 's' 'K' 'b' then [-40, -36]
  else if value = hwid 'D' 'b' 'g' 'C' then [-12]
  else if value = hwid 'R' 's' 'e' 't' then [toInt32 ROMStart]
  else if value = hwid 'v' 'R' 'T' 'C' then [0, (s.initial_clock : Int)]
  else []

/-- `risc_load_io` of risc.c (no peripherals installed): returns the value read and the
successor state (the timer and an empty keyboard queue decrement `progress`; a keyboard
read pops the queue; an enumerator read advances its cursor). -/
def risc_load_port (s : RISC) (address : Nat) : Nat × RISC :=
  if PaletteStart ≤ address ∧ address < PaletteStart + 0x400 then
    (s.Palette ((address - PaletteStart) / 4), s)
  else
    match (address + 4294967296 - IOStart) % 4294967296 with
    | 0 => (s.current_tick, { s with progress := dec32 s.progress })
    | 4 => (s.switches, s)
    | 8 => (0, s)
    | 12 => (0, s)
    | 16 => (255, s)
    | 20 => (1, s)
    | 24 =>
      match s.key_buf with
      | [] => (s.mouse, { s with progress := dec32 s.progress })
      | _ :: _ => (s.mouse ||| 0x10000000, s)
    | 28 =>
      match s.key_buf with
      | [] => (0, s)
      | k :: rest => (k, { s with key_buf := rest })
    | 40 => (0, s)
    | 44 => (0, s)
    | 48 => (s.current_mode.index, s)
    | 60 =>
      if s.hwenum_idx < s.hwenum_buf.length then
        (ofInt32 (s.hwenum_buf.getD s.hwenum_idx 0), { s with hwenum_idx := s.hwenum_idx + 1 })
      else (0, s)
    | _ => (0, s)

/-- The accepted-mode update at the end of the dynamic branch of `risc_store_io`
`case 48` (risc.c lines 739-746): validate the decoded dimensions, and on success
install the dynamic mode into `dyn_mode_slots[0]` and make it current. -/
def risc_mode_accept (s : RISC) (value md w h : Nat) : RISC :=
  if w ≤ 2048 ∧ w % 32 = 0 ∧ h ≤ 2045 ∧ 1 ≤ md ∧ md ≤ 3 then
    let depth := if md = 1 then 1 else if md = 2 then 8 else 4
    let nm : DisplayMode := ⟨value, w, h, depth⟩
    { s with dyn_slot0 := nm, current_mode := nm, current_mode_span := w / (32 / depth) }
  else s

/-- The scan over the installed (sentinel-terminated) mode list in `risc_store_io`
`case 48`: first mode whose `index` equals the written value. -/
def find_mode : List DisplayMode → Nat → Option DisplayMode
  | [], _ => none
  | m :: rest, v =>
    if m.width = 0 then none
    else if m.index = v then some m else find_mode rest v

/-- `risc_store_io` `case 48` of risc.c: switch to an installed mode by index, else (if
`screen_dynsize`) decode a dynamic mode `(depth selector | width | height)`, with
`width = height = 0` replaced by the clamped host size hint (`dyn_mode_slots[1]`). -/
def risc_mode_switch (s : RISC) (value : Nat) : RISC :=
  match find_mode s.modes value with
  | some m =>
    { s with current_mode := m, current_mode_span := m.width / (32 / m.depth),
             screen_seamless := false }
  | none =>
    let s1 := { s with screen_seamless := false }
    if s1.screen_dynsize then
      let md := value >>> 30
      let w0 := (value >>> 15) &&& 0x7FFF
      let h0 := value &&& 0x7FFF
      if w0 = 0 ∧ h0 = 0 then
        let w1 := s1.dyn_slot1.width / 32 * 32
        let w2 := if w1 < 64 then 64 else w1
        let h1 := if s1.dyn_slot1.height < 64 then 64 else s1.dyn_slot1.height
        let w3 := if w2 > 2048 then 2048 else w2
        let h2 := if h1 > 2048 then 2048 else h1
        risc_mode_accept { s1 with screen_seamless := true }
          ((md <<< 30) ||| (w3 <<< 15) ||| h2) md w3 h2
      else risc_mode_accept s1 value md w0 h0
    else s1

/-- `risc_store_io` of risc.c (no peripherals installed): palette writes force a
full-screen damage rectangle; `case 20` selects the SPI slave; `case 48` switches the
display mode; `case 52` is the debug console (flush on NUL or a full 511-byte buffer,
CR mapped to LF); `case 60` rebuilds the hardware-enumerator buffer. -/
def risc_store_port (s : RISC) (address value : Nat) : RISC :=
  if PaletteStart ≤ address ∧ address < PaletteStart + 0x400 then
    { s with Palette := updf s.Palette ((address - PaletteStart) / 4) value,
             damage := ⟨0, (s.current_mode_span : Int) - 1, 0,
                        (s.current_mode.height : Int) - 1⟩ }
  else
    match (address + 4294967296 - IOStart) % 4294967296 with
    | 20 => { s with spi_selected := value &&& 3 }
    | 48 => risc_mode_switch s value
    | 52 =>
      let s1 := if value = 0 ∨ s.debug_buf.length = 511 then { s with debug_buf := [] } else s
      if value ≠ 0 then
        { s1 with debug_buf := s1.debug_buf ++ [if value = 13 then 10 else value] }
      else s1
    | 60 => { s with hwenum_idx := 0, hwenum_buf := hwenum_fill s value }
    | _ => s

/-- `risc_load_word` of risc.c: RAM below `mem_size`, MMIO above. -/
def risc_load_word (s : RISC) (address : Nat) : Nat × RISC :=
  if address < s.mem_size then (s.RAM (address / 4), s) else risc_load_port s address

/-- `risc_load_byte` of risc.c: shift the enclosing word. -/
def risc_load_byte (s : RISC) (address : Nat) : Nat × RISC :=
  let ws := risc_load_word s address
  ((ws.1 >>> (address % 4 * 8)) % 256, ws.2)

/-- `risc_update_damage` of risc.c: grow the damage rectangle to include word index `w`
of the framebuffer, clipped to rows below the screen height. -/
def risc_update_damage (s : RISC) (w : Nat) : RISC :=
  let row : Int := (w / s.current_mode_span : Nat)
  let col : Int := (w % s.current_mode_span : Nat)
  if row < (s.current_mode.height : Int) then
    { s with damage :=
      { x1 := if col < s.damage.x1 then col else s.damage.x1,
        x2 := if col > s.damage.x2 then col else s.damage.x2,
        y1 := if row < s.damage.y1 then row else s.damage.y1,
        y2 := if row > s.damage.y2 then row else s.damage.y2 } }
  else s

/-- `risc_store_word` of risc.c: plain RAM below `display_start`, RAM plus damage
tracking in the framebuffer region, MMIO above `mem_size`. -/
def risc_store_word (s : RISC) (address value : Nat) : RISC :=
  if address < s.display_start then
    { s with RAM := updf s.RAM (address / 4) value }
  else if address < s.mem_size then
    risc_update_damage { s with RAM := updf s.RAM (address / 4) value }
      (address / 4 - s.display_start / 4)
  else risc_store_port s address value

/-- `risc_store_byte` of risc.c: read-modify-write of the enclosing word below
`mem_size`, MMIO word write of the byte above (`value` is already a byte). -/
def risc_store_byte (s : RISC) (address value : Nat) : RISC :=
  if address < s.mem_size then
    let ws := risc_load_word s address
    let shift := (address &&& 3) * 8
    risc_store_word ws.2 address
      ((ws.1 &&& (0xFFFFFFFF ^^^ (0xFF <<< shift))) ||| (value <<< shift))
  else risc_store_port s address value

/-- `risc_set_register` of risc.c: write the register and derive `Z`/`N`. -/
def risc_set_register (s : RISC) (reg value : Nat) : RISC :=
  { s with R := updf s.R reg value,
           Z := decide (value = 0), N := decide (2147483648 ≤ value) }

/-- The C operand `c_val`: register, zero-extended immediate, or sign-extended
immediate, selected by the `q` and `v` bits. -/
def risc_c_value (s : RISC) (ir : Nat) : Nat :=
  if ir &&& 0x40000000 = 0 then s.R (ir &&& 0x0000000F)
  else if ir &&& 0x10000000 = 0 then ir &&& 0x0000FFFF
  else 0xFFFF0000 ||| (ir &&& 0x0000FFFF)

/-- Modelled from the spec: `idiv` lives in risc-fp.c, which is not part of src/ (only
its call site in `risc_single_step` is).  Section 4.1 of the spec assigns it "equivalent
semantics for negative divisors" — signed Euclidean division with a non-negative
remainder — plain unsigned division when the `u` bit is set, and leaves the bit pattern
for a zero divisor open (§9), so the zero case is a fixed arbitrary deterministic
value. -/
def idiv (x y : Nat) (unsigned_div : Bool) : Nat × Nat :=
  if unsigned_div then
    if y = 0 then (0, x) else (x / y, x % y)
  else
    let xi := toInt32 x
    let yi := toInt32 y
    if yi = 0 then (0, x)
    else (ofInt32 (Int.ediv xi yi), ofInt32 (Int.emod xi yi))

/-- Modelled from the spec: `fp_add` lives in risc-fp.c, which is not part of src/; the
spec defers its exact semantics to the reference ISA and no claim below concerns
floating point, so it is modelled as a fixed arbitrary value. -/
def fp_add (_b _c : Nat) (_u _v : Bool) : Nat := 0

/-- Modelled from the spec: `fp_mul` of risc-fp.c, as for `fp_add`. -/
def fp_mul (_b _c : Nat) : Nat := 0

/-- Modelled from the spec: `fp_div` of risc-fp.c, as for `fp_add`. -/
def fp_div (_b _c : Nat) : Nat := 0

/-- The register-instruction arithmetic of `risc_single_step` (risc.c lines 295-408):
the value `a_val` destined for `R[a]`, together with the state as updated by the
`H`/`C`/`V` side effects of the executed operation. -/
def risc_reg_result (s : RISC) (ir : Nat) : Nat × RISC :=
  let b_val := s.R ((ir &&& 0x00F00000) >>> 20)
  let c_val := risc_c_value s ir
  match (ir &&& 0x000F0000) >>> 16 with
  | 0 => -- MOV
    (if ir &&& 0x20000000 = 0 then c_val
     else if ir &&& 0x40000000 ≠ 0 then (c_val <<< 16) % 4294967296
     else if ir &&& 0x10000000 ≠ 0 then
       0xD0 ||| (if s.N then 0x80000000 else 0) ||| (if s.Z then 0x40000000 else 0) |||
         (if s.C then 0x20000000 else 0) ||| (if s.V then 0x10000000 else 0)
     else s.H, s)
  | 1 => ((b_val <<< (c_val &&& 31)) % 4294967296, s)          -- LSL
  | 2 => (ofInt32 (Int.ediv (toInt32 b_val) (2 ^ (c_val &&& 31))), s)  -- ASR
  | 3 => ((b_val >>> (c_val &&& 31)) |||
            ((b_val <<< ((4294967296 - c_val) &&& 31)) % 4294967296), s)  -- ROR
  | 4 => (b_val &&& c_val, s)                                   -- AND
  | 5 => (b_val &&& (c_val ^^^ 0xFFFFFFFF), s)                  -- ANN
  | 6 => (b_val ||| c_val, s)                                   -- IOR
  | 7 => (b_val ^^^ c_val, s)                                   -- XOR
  | 8 => -- ADD (with carry when u)
    let sum0 := (b_val + c_val) % 4294967296
    let sum := if ir &&& 0x20000000 ≠ 0 then
                 (sum0 + (if s.C then 1 else 0)) % 4294967296
               else sum0
    (sum, { s with C := decide (sum < b_val),
                   V := decide ((((sum ^^^ c_val) &&& (sum ^^^ b_val)) >>> 31) ≠ 0) })
  | 9 => -- SUB (with borrow when u)
    let diff0 := (b_val + 4294967296 - c_val) % 4294967296
    let diff := if ir &&& 0x20000000 ≠ 0 then
                  (diff0 + 4294967296 - (if s.C then 1 else 0)) % 4294967296
                else diff0
    (diff, { s with C := decide (diff > b_val),
                    V := decide ((((b_val ^^^ c_val) &&& (diff ^^^ b_val)) >>> 31) ≠ 0) })
  | 10 => -- MUL: 64-bit product, low half to R[a], high half to H
    let p : Int := if ir &&& 0x20000000 = 0 then toInt32 b_val * toInt32 c_val
                   else (b_val : Int) * (c_val : Int)
    let p64 := (p % 18446744073709551616).toNat
    (p64 % 4294967296, { s with H := p64 >>> 32 })
  | 11 => -- DIV
    if 0 < toInt32 c_val then
      if ir &&& 0x20000000 = 0 then
        let a0 := ofInt32 (Int.tdiv (toInt32 b_val) (toInt32 c_val))
        let h0 := ofInt32 (Int.tmod (toInt32 b_val) (toInt32 c_val))
        if toInt32 h0 < 0 then
          ((a0 + 4294967296 - 1) % 4294967296, { s with H := (h0 + c_val) % 4294967296 })
        else (a0, { s with H := h0 })
      else (b_val / c_val, { s with H := b_val % c_val })
    else
      let q := idiv b_val c_val (ir &&& 0x20000000 ≠ 0)
      (q.1, { s with H := q.2 })
  | 12 => (fp_add b_val c_val (ir &&& 0x20000000 ≠ 0) (ir &&& 0x10000000 ≠ 0), s)  -- FAD
  | 13 => (fp_add b_val (c_val ^^^ 0x80000000) (ir &&& 0x20000000 ≠ 0)
             (ir &&& 0x10000000 ≠ 0), s)                                            -- FSB
  | 14 => (fp_mul b_val c_val, s)                                                   -- FML
  | 15 => (fp_div b_val c_val, s)                                                   -- FDV
  | _ => (0, s)  -- unreachable: the opcode field is 4 bits

/-- The register-instruction case of `risc_single_step`: compute the result and commit
it through `risc_set_register`. -/
def risc_execute_reg (s : RISC) (ir : Nat) : RISC :=
  let p := risc_reg_result s ir
  risc_set_register p.2 ((ir &&& 0x0F000000) >>> 24) p.1

/-- The memory-instruction case of `risc_single_step` (risc.c lines 411-434):
`address = R[b] + signext20(off)` in 32-bit arithmetic; `u` selects store, `v` byte. -/
def risc_execute_mem (s : RISC) (ir : Nat) : RISC :=
  let a := (ir &&& 0x0F000000) >>> 24
  let address := (s.R ((ir &&& 0x00F00000) >>> 20) + ((ir &&& 0x000FFFFF) ^^^ 0x00080000)
                  + 4294967296 - 0x00080000) % 4294967296
  if ir &&& 0x20000000 = 0 then
    if ir &&& 0x10000000 = 0 then
      let ws := risc_load_word s address
      risc_set_register ws.2 a ws.1
    else
      let ws := risc_load_byte s address
      risc_set_register ws.2 a ws.1
  else
    if ir &&& 0x10000000 = 0 then risc_store_word s address (s.R a)
    else risc_store_byte s address (s.R a % 256)

/-- The branch-condition table of `risc_single_step` (indices 0-6; index 7 is the
always-true case, whose `IRET`/`STI`/`CLI` side effects live in
`risc_execute_branch`). -/
def risc_branch_cond (s : RISC) (cond : Nat) : Bool :=
  match cond with
  | 0 => s.N
  | 1 => s.Z
  | 2 => s.C
  | 3 => s.V
  | 4 => s.C || s.Z
  | 5 => Bool.xor s.N s.V
  | 6 => (Bool.xor s.N s.V) || s.Z
  | _ => true

/-- The branch-instruction case of `risc_single_step` (risc.c lines 435-478),
including the interrupt extensions: with condition 7 and `u = 0`, bit 4 plus interrupt
mode is `IRET` (restore `PC` and flags from the shadow registers, leave interrupt
mode, clear the pending flag), else bit 5 is `STI`/`CLI` (`E := bit 0`).  An ordinary
taken branch optionally links `R[15] := PC·4` (`v`) and jumps to `R[c]/4` (`u = 0`) or
`PC + signext24(off)` (`u = 1`). -/
def risc_execute_branch (s : RISC) (ir : Nat) : RISC :=
  if (ir >>> 24) &&& 7 = 7 ∧ ir &&& 0x20000000 = 0 ∧ ir &&& 0x10 = 0x10 ∧ s.I then
    { s with PC := s.SPC, Z := s.SZ, N := s.SN, C := s.SC, V := s.SV,
             I := false, P := false }
  else if (ir >>> 24) &&& 7 = 7 ∧ ir &&& 0x20000000 = 0 ∧ ir &&& 0x20 = 0x20 then
    { s with E := decide (ir &&& 1 = 1) }
  else
    let t := Bool.xor (decide ((ir >>> 27) &&& 1 = 1)) (risc_branch_cond s ((ir >>> 24) &&& 7))
    if t then
      let s1 := if ir &&& 0x10000000 ≠ 0 then
                  risc_set_register s 15 ((s.PC * 4) % 4294967296)
                else s
      if ir &&& 0x20000000 = 0 then { s1 with PC := s1.R (ir &&& 0x0000000F) / 4 }
      else { s1 with PC := (s1.PC + ((ir &&& 0x00FFFFFF) ^^^ 0x00800000)
                            + 4294967296 - 0x00800000) % 4294967296 }
    else s

/-- The decode-execute dispatch of `risc_single_step` on a fetched instruction word
(`p` selects register/memory/branch format). -/
def risc_execute (s : RISC) (ir : Nat) : RISC :=
  if ir &&& 0x80000000 = 0 then risc_execute_reg s ir
  else if ir &&& 0x40000000 = 0 then risc_execute_mem s ir
  else risc_execute_branch s ir

/-- The interrupt acceptance check at the top of `risc_single_step` (risc.c lines
252-260): with an enabled pending interrupt outside interrupt mode, snapshot the flags
and `PC` into the shadow registers, enter interrupt mode and jump to word index 1. -/
def risc_interrupt_check (s : RISC) : RISC :=
  if s.P ∧ s.E ∧ ¬ s.I then
    { s with SPC := s.PC, SZ := s.Z, SN := s.N, SC := s.C, SV := s.V,
             I := true, PC := 1 }
  else s

/-- The fetch stage of `risc_single_step` (risc.c lines 261-270): fetch from RAM below
`mem_size/4`, from ROM in `[ROMStart/4, ROMStart/4 + 512)`, and otherwise perform the
soft reset `risc_reset` (which only sets `PC := ROMStart/4`) without executing
anything. -/
def risc_fetch_execute (s : RISC) : RISC :=
  if s.PC < s.mem_size / 4 then
    risc_execute { s with PC := s.PC + 1 } (s.RAM s.PC)
  else if ROMStart / 4 ≤ s.PC ∧ s.PC < ROMStart / 4 + 512 then
    risc_execute { s with PC := s.PC + 1 } (s.ROM (s.PC - ROMStart / 4))
  else { s with PC := ROMStart / 4 }

/-- `risc_single_step` of risc.c: interrupt check, then fetch-execute. -/
def risc_single_step (s : RISC) : RISC :=
  risc_fetch_execute (risc_interrupt_check s)

/-- `risc_get_framebuffer_damage` of risc.c: hand out the current rectangle and reset
it to the empty sentinel `(x1, x2, y1, y2) = (span, 0, height, 0)`. -/
def risc_get_framebuffer_damage (s : RISC) : Damage × RISC :=
  (s.damage,
   { s with damage := ⟨(s.current_mode_span : Int), 0, (s.current_mode.height : Int), 0⟩ })

/-- The state `risc_new` constructs (with a zeroed real-time clock): default 1 MiB
memory map, the standard 1024×768×1 mode, full-screen initial damage, zeroed RAM and
registers.  Used as the base state of the concrete scenarios below. -/
def cpu0 : RISC :=
  { PC := ROMStart / 4, R := fun _ => 0, H := 0, SPC := 0,
    SZ := false, SN := false, SC := false, SV := false,
    Z := false, N := false, C := false, V := false, I := false, E := false, P := false,
    mem_size := 0x00100000, display_start := 0x000E7F00,
    progress := 0, current_tick := 0, mouse := 0, key_buf := [], switches := 0,
    spi_selected := 0,
    dyn_slot0 := ⟨0, 1024, 768, 1⟩, dyn_slot1 := ⟨0xFFFFFFFF, 0, 0, 0⟩,
    modes := [⟨0, 1024, 768, 1⟩], current_mode := ⟨0, 1024, 768, 1⟩,
    current_mode_span := 32,
    modes_by_depth1 := 0, modes_by_depth4 := 0, modes_by_depth8 := 0,
    screen_dynsize := false, screen_seamless := false, initial_clock := 0,
    damage := ⟨0, 31, 0, 767⟩,
    hwenum_buf := [], hwenum_idx := 0,
    RAM := fun _ => 0, ROM := fun _ => 0, Palette := fun _ => 0, debug_buf := [] }

example : (risc_execute { cpu0 with R := fun i => if i = 1 then 0xFFFFFFFF else if i = 2 then 1 else 0 } 0x00180002).R 0 = 0 := by decide

example : (risc_execute { cpu0 with R := fun i => if i = 1 then 0xFFFFFFF9 else if i = 2 then 3 else 0 } 0x001B0002).R 0 = 0xFFFFFFFD := by decide

example : (risc_execute { cpu0 with R := fun i => if i = 1 then 0xFFFFFFF9 else if i = 2 then 3 else 0 } 0x001B0002).H = 2 := by decide

/-! ## Arithmetic helper lemmas -/

lemma toInt32_bounds (n : Nat) (h : n < 4294967296) :
    -2147483648 ≤ toInt32 n ∧ toInt32 n < 2147483648 := by
  unfold toInt32; split <;> omega

lemma ofInt32_lt (z : Int) : ofInt32 z < 4294967296 := by
  unfold ofInt32; omega

lemma toInt32_ofInt32 (z : Int) (h1 : -2147483648 ≤ z) (h2 : z < 2147483648) :
    toInt32 (ofInt32 z) = z := by
  unfold toInt32 ofInt32; split <;> omega

lemma testBit31_iff (x : Nat) (h : x < 4294967296) :
    x.testBit 31 = decide (2147483648 ≤ x) := by
  rw [Nat.testBit_to_div_mod, decide_eq_decide]
  norm_num
  omega

lemma shift31_ne_iff (x : Nat) (h : x < 4294967296) :
    (x >>> 31 ≠ 0) ↔ 2147483648 ≤ x := by
  rw [Nat.shiftRight_eq_div_pow]
  norm_num
  omega

lemma word_lt_pow32 (x : Nat) (h : x < 4294967296) : x < 2 ^ 32 := by norm_num; omega

/-- Bit 31 of `(x ^ y) & (x ^ z)` for 32-bit words: set exactly when the sign of `x`
differs both from the sign of `y` and from the sign of `z`. -/
lemma hi_and_xor_xor (x y z : Nat) (hx : x < 4294967296) (hy : y < 4294967296)
    (hz : z < 4294967296) :
    (2147483648 ≤ ((x ^^^ y) &&& (x ^^^ z))) ↔
      (¬((2147483648 ≤ x) ↔ (2147483648 ≤ y)) ∧ ¬((2147483648 ≤ x) ↔ (2147483648 ≤ z))) := by
  have hxz : x ^^^ z < 4294967296 := by
    have := Nat.xor_lt_two_pow (n := 32) (word_lt_pow32 _ hx) (word_lt_pow32 _ hz)
    norm_num at this
    omega
  have hand : (x ^^^ y) &&& (x ^^^ z) < 4294967296 := by
    have := Nat.and_lt_two_pow (x ^^^ y) (n := 32) (word_lt_pow32 _ hxz)
    norm_num at this
    omega
  have k : ∀ w, w < 4294967296 → ((2147483648 ≤ w) ↔ (w.testBit 31 = true)) := by
    intro w hw
    rw [testBit31_iff _ hw]
    simp
  rw [k _ hand, k _ hx, k _ hy, k _ hz, Nat.testBit_and, Bool.and_eq_true,
      Nat.testBit_xor, Nat.testBit_xor]
  cases hbx : x.testBit 31 <;> cases hby : y.testBit 31 <;> cases hbz : z.testBit 31 <;> simp

/-- The `((a ^ c) & (a ^ b)) >> 31` overflow bit of `ADD` equals the semantic signed
overflow: the wrapped signed result differs from the exact signed sum. -/
lemma overflow_add_eq (b c cin : Nat) (hb : b < 4294967296) (hc : c < 4294967296)
    (hcin : cin ≤ 1) :
    decide (((((b + c + cin) % 4294967296) ^^^ c) &&&
              (((b + c + cin) % 4294967296) ^^^ b)) >>> 31 ≠ 0)
      = decide (toInt32 ((b + c + cin) % 4294967296) ≠ toInt32 b + toInt32 c + cin) := by
  set r := (b + c + cin) % 4294967296 with hr
  have hrlt : r < 4294967296 := by omega
  have hxc : r ^^^ c < 4294967296 := by
    have := Nat.xor_lt_two_pow (n := 32) (word_lt_pow32 _ hrlt) (word_lt_pow32 _ hc)
    norm_num at this
    omega
  have hxb : r ^^^ b < 4294967296 := by
    have := Nat.xor_lt_two_pow (n := 32) (word_lt_pow32 _ hrlt) (word_lt_pow32 _ hb)
    norm_num at this
    omega
  have hand : (r ^^^ c) &&& (r ^^^ b) < 4294967296 := by
    have := Nat.and_lt_two_pow (r ^^^ c) (n := 32) (word_lt_pow32 _ hxb)
    norm_num at this
    omega
  rw [decide_eq_decide, shift31_ne_iff _ hand, hi_and_xor_xor r c b hrlt hc hb]
  unfold toInt32
  split_ifs <;> omega

/-- The `((b ^ c) & (a ^ b)) >> 31` overflow bit of `SUB` equals the semantic signed
overflow of the subtraction. -/
lemma overflow_sub_eq (b c cin : Nat) (hb : b < 4294967296) (hc : c < 4294967296)
    (hcin : cin ≤ 1) :
    decide (((b ^^^ c) &&&
              (((b + 8589934592 - c - cin) % 4294967296) ^^^ b)) >>> 31 ≠ 0)
      = decide (toInt32 ((b + 8589934592 - c - cin) % 4294967296)
                  ≠ toInt32 b - toInt32 c - cin) := by
  set r := (b + 8589934592 - c - cin) % 4294967296 with hr
  have hrlt : r < 4294967296 := by omega
  have hrb : r ^^^ b = b ^^^ r := Nat.xor_comm r b
  have hand : (b ^^^ c) &&& (b ^^^ r) < 4294967296 := by
    have hbr : b ^^^ r < 4294967296 := by
      have := Nat.xor_lt_two_pow (n := 32) (word_lt_pow32 _ hb) (word_lt_pow32 _ hrlt)
      norm_num at this
      omega
    have := Nat.and_lt_two_pow (b ^^^ c) (n := 32) (word_lt_pow32 _ hbr)
    norm_num at this
    omega
  rw [decide_eq_decide, hrb, shift31_ne_iff _ hand, hi_and_xor_xor b c r hb hc hrlt]
  unfold toInt32
  split_ifs <;> omega

/-! ## Claim theorems -/

/-- Claim C10: SPI reads never advance the disk state machine: `disk_read` returns
`tx_buf[tx_idx]` exactly when `0 ≤ tx_idx < tx_cnt` and 255 otherwise, and leaves
every field of the disk state unchanged; only `disk_write` transitions the machine. -/
theorem c10_disk_read_pure (d : Disk) :
    (disk_read d).2 = d ∧
    (disk_read d).2.state = d.state ∧
    (disk_read d).2.rx_buf = d.rx_buf ∧
    (disk_read d).2.rx_idx = d.rx_idx ∧
    (disk_read d).2.tx_buf = d.tx_buf ∧
    (disk_read d).2.tx_cnt = d.tx_cnt ∧
    (disk_read d).2.tx_idx = d.tx_idx ∧
    (disk_read d).2.offset = d.offset ∧
    (disk_read d).1 =
      if 0 ≤ d.tx_idx ∧ d.tx_idx < d.tx_cnt then d.tx_buf d.tx_idx.toNat else 255 :=
  ⟨rfl, rfl, rfl, rfl, rfl, rfl, rfl, rfl, rfl⟩

/-- Claim C8 (counterexample): in the Command state the guard ignores `0xFF` only while
`rx_idx = 0`.  After a single accumulated byte (here the read-command byte 81), writing
`0xFF` does change `rx_buf` and `rx_idx`, contradicting the claim that an `0xFF` write
leaves them unchanged for every Command-state disk. -/
theorem c8_counterexample :
    (disk_write (disk_new none) 81).state = DiskState.Command ∧
    (disk_write (disk_new none) 81).rx_idx = 1 ∧
    (disk_write (disk_write (disk_new none) 81) 255).rx_idx = 2 ∧
    (disk_write (disk_write (disk_new none) 81) 255).rx_buf 1 = 255 := by
  decide

/-- Claim C8 (amended): in the Command state, a `0xFF` byte is ignored (only `tx_idx`
is incremented) exactly when no command byte has been accumulated yet (`rx_idx = 0`);
otherwise every byte, `0xFF` included, is accumulated into `rx_buf`, and the sixth
accumulated byte triggers `disk_run_command` with `rx_idx` reset to 0. -/
theorem c8_command_accumulation (d : Disk) (v : Nat) (hst : d.state = DiskState.Command) :
    (v % 256 = 255 → d.rx_idx = 0 →
       disk_write d v = { d with tx_idx := d.tx_idx + 1 }) ∧
    ((v % 256 ≠ 255 ∨ d.rx_idx ≠ 0) → d.rx_idx ≠ 5 →
       disk_write d v = { d with tx_idx := d.tx_idx + 1,
                                 rx_buf := updf d.rx_buf d.rx_idx v,
                                 rx_idx := d.rx_idx + 1 }) ∧
    ((v % 256 ≠ 255 ∨ d.rx_idx ≠ 0) → d.rx_idx = 5 →
       disk_write d v = { disk_run_command
                            { d with tx_idx := d.tx_idx + 1,
                                     rx_buf := updf d.rx_buf d.rx_idx v,
                                     rx_idx := 6 } with rx_idx := 0 }) := by
  refine ⟨?_, ?_, ?_⟩
  · intro h1 h2
    simp only [disk_write, hst]
    rw [if_neg]
    omega
  · intro h1 h2
    simp only [disk_write, hst]
    rw [if_pos h1, if_neg (by omega)]
  · intro h1 h2
    simp only [disk_write, hst]
    rw [if_pos h1, if_pos (by omega), h2]

/-- Claim C8 (witness): a concrete Command-state disk with five accumulated bytes, on
which the sixth write triggers command execution, and a fresh disk on which a leading
`0xFF` is ignored. -/
theorem c8_witness :
    (disk_write (disk_new none) 255 = { disk_new none with tx_idx := 1 }) ∧
    (disk_write (disk_writes (disk_new none) [81, 0, 0, 0, 7]) 0 =
      { disk_run_command
          { disk_writes (disk_new none) [81, 0, 0, 0, 7] with
            tx_idx := (disk_writes (disk_new none) [81, 0, 0, 0, 7]).tx_idx + 1,
            rx_buf := updf (disk_writes (disk_new none) [81, 0, 0, 0, 7]).rx_buf
              (disk_writes (disk_new none) [81, 0, 0, 0, 7]).rx_idx 0,
            rx_idx := 6 } with rx_idx := 0 }) := by
  constructor
  · exact (c8_command_accumulation (disk_new none) 255 (by decide)).1 (by decide) (by decide)
  · exact (c8_command_accumulation (disk_writes (disk_new none) [81, 0, 0, 0, 7]) 0
      (by decide)).2.2 (Or.inl (by decide)) (by decide)

/-- Claim C5: damage read-out is idempotent when nothing intervenes:
`risc_get_framebuffer_damage` returns the current rectangle and resets it to the empty
sentinel `(x1, y1, x2, y2) = (span, height, 0, 0)`, so an immediate second call returns
an empty rectangle (`x1 > x2` and `y1 > y2`, the span and height being positive). -/
theorem c5_damage_idempotent (s : RISC)
    (hspan : 0 < s.current_mode_span) (hh : 0 < s.current_mode.height) :
    (risc_get_framebuffer_damage s).1 = s.damage ∧
    (risc_get_framebuffer_damage s).2.damage =
      ⟨(s.current_mode_span : Int), 0, (s.current_mode.height : Int), 0⟩ ∧
    (risc_get_framebuffer_damage ((risc_get_framebuffer_damage s).2)).1 =
      ⟨(s.current_mode_span : Int), 0, (s.current_mode.height : Int), 0⟩ ∧
    (risc_get_framebuffer_damage ((risc_get_framebuffer_damage s).2)).1.x1 >
      (risc_get_framebuffer_damage ((risc_get_framebuffer_damage s).2)).1.x2 ∧
    (risc_get_framebuffer_damage ((risc_get_framebuffer_damage s).2)).1.y1 >
      (risc_get_framebuffer_damage ((risc_get_framebuffer_damage s).2)).1.y2 := by
  refine ⟨rfl, rfl, rfl, ?_, ?_⟩ <;> simp [risc_get_framebuffer_damage] <;> omega

/-- Claim C5 (witness): the damage round trip on the `risc_new` state. -/
theorem c5_witness :
    (risc_get_framebuffer_damage cpu0).1 = cpu0.damage ∧
    (risc_get_framebuffer_damage cpu0).2.damage = ⟨(32 : Int), 0, (768 : Int), 0⟩ ∧
    (risc_get_framebuffer_damage ((risc_get_framebuffer_damage cpu0).2)).1 =
      ⟨(32 : Int), 0, (768 : Int), 0⟩ ∧
    (risc_get_framebuffer_damage ((risc_get_framebuffer_damage cpu0).2)).1.x1 >
      (risc_get_framebuffer_damage ((risc_get_framebuffer_damage cpu0).2)).1.x2 ∧
    (risc_get_framebuffer_damage ((risc_get_framebuffer_damage cpu0).2)).1.y1 >
      (risc_get_framebuffer_damage ((risc_get_framebuffer_damage cpu0).2)).1.y2 :=
  c5_damage_idempotent cpu0 (by decide) (by decide)

/-- Claim C6: instruction fetch reads from RAM when `PC < mem_size/4`, from ROM when
`ROMStart/4 ≤ PC < ROMStart/4 + 512` (RAM never reaches the ROM window: `mem_size` is
at most 64 MiB + framebuffer, below `ROMStart`), and from any other `PC` performs a
soft reset that sets `PC := ROMStart/4` and executes nothing — every other component
of the state is left untouched. -/
theorem c6_fetch_routing (s : RISC) :
    (s.PC < s.mem_size / 4 →
       risc_fetch_execute s = risc_execute { s with PC := s.PC + 1 } (s.RAM s.PC)) ∧
    (s.mem_size ≤ ROMStart → ROMStart / 4 ≤ s.PC → s.PC < ROMStart / 4 + 512 →
       risc_fetch_execute s = risc_execute { s with PC := s.PC + 1 }
         (s.ROM (s.PC - ROMStart / 4))) ∧
    (¬ s.PC < s.mem_size / 4 → ¬ (ROMStart / 4 ≤ s.PC ∧ s.PC < ROMStart / 4 + 512) →
       risc_fetch_execute s = { s with PC := ROMStart / 4 } ∧
       (risc_fetch_execute s).PC = ROMStart / 4 ∧
       (risc_fetch_execute s).R = s.R ∧ (risc_fetch_execute s).H = s.H ∧
       (risc_fetch_execute s).Z = s.Z ∧ (risc_fetch_execute s).N = s.N ∧
       (risc_fetch_execute s).C = s.C ∧ (risc_fetch_execute s).V = s.V ∧
       (risc_fetch_execute s).I = s.I ∧ (risc_fetch_execute s).E = s.E ∧
       (risc_fetch_execute s).P = s.P ∧ (risc_fetch_execute s).RAM = s.RAM) := by
  refine ⟨?_, ?_, ?_⟩
  · intro h
    unfold risc_fetch_execute
    rw [if_pos h]
  · intro hmem h1 h2
    unfold risc_fetch_execute
    rw [if_neg (by unfold ROMStart at *; omega), if_pos ⟨h1, h2⟩]
  · intro h1 h2
    unfold risc_fetch_execute
    rw [if_neg h1, if_neg h2]
    exact ⟨rfl, rfl, rfl, rfl, rfl, rfl, rfl, rfl, rfl, rfl, rfl, rfl⟩

/-- Claim C6 (witness): fetch from RAM at `PC = 0`, from ROM at `PC = ROMStart/4`
(the reset vector of `cpu0`), and the soft reset at the unmapped `PC = 0x80000`. -/
theorem c6_witness :
    (risc_fetch_execute { cpu0 with PC := 0 } =
       risc_execute { cpu0 with PC := 1 } (cpu0.RAM 0)) ∧
    (risc_fetch_execute cpu0 = risc_execute { cpu0 with PC := cpu0.PC + 1 }
       (cpu0.ROM (cpu0.PC - ROMStart / 4))) ∧
    (risc_fetch_execute { cpu0 with PC := 0x80000 } =
       { cpu0 with PC := ROMStart / 4 }) := by
  refine ⟨?_, ?_, ?_⟩
  · exact (c6_fetch_routing { cpu0 with PC := 0 }).1 (by norm_num [cpu0])
  · exact (c6_fetch_routing cpu0).2.1 (by norm_num [cpu0, ROMStart])
      (by norm_num [cpu0, ROMStart]) (by norm_num [cpu0, ROMStart])
  · exact ((c6_fetch_routing { cpu0 with PC := 0x80000 }).2.2
      (by norm_num [cpu0]) (by norm_num [cpu0, ROMStart])).1

/-- Claim C3: the interrupt round trip.  From any state with `E = true`, `I = false`
and `P` raised, the next step's interrupt check snapshots `Z, N, C, V, PC` into
`SZ, SN, SC, SV, SPC`, sets `I` and sets `PC := 1`; executing an `IRET` (a branch
instruction with condition 7, `u = 0` and bit 4 set) in any interrupt-mode state that
still carries that snapshot restores `PC` and the four flags to exactly the snapshotted
values and clears both `I` and `P`. -/
theorem c3_interrupt_roundtrip (s t : RISC) (ir : Nat)
    (hP : s.P = true) (hE : s.E = true) (hI : s.I = false)
    (htI : t.I = true) (htSPC : t.SPC = s.PC) (htSZ : t.SZ = s.Z) (htSN : t.SN = s.N)
    (htSC : t.SC = s.C) (htSV : t.SV = s.V)
    (hp : ir &&& 0x80000000 ≠ 0) (hq : ir &&& 0x40000000 ≠ 0)
    (hcond : (ir >>> 24) &&& 7 = 7) (hu : ir &&& 0x20000000 = 0)
    (hb4 : ir &&& 0x10 = 0x10) :
    ((risc_interrupt_check s).SPC = s.PC ∧ (risc_interrupt_check s).SZ = s.Z ∧
     (risc_interrupt_check s).SN = s.N ∧ (risc_interrupt_check s).SC = s.C ∧
     (risc_interrupt_check s).SV = s.V ∧ (risc_interrupt_check s).I = true ∧
     (risc_interrupt_check s).PC = 1) ∧
    ((risc_execute t ir).PC = s.PC ∧ (risc_execute t ir).Z = s.Z ∧
     (risc_execute t ir).N = s.N ∧ (risc_execute t ir).C = s.C ∧
     (risc_execute t ir).V = s.V ∧ (risc_execute t ir).I = false ∧
     (risc_execute t ir).P = false) := by
  constructor
  · unfold risc_interrupt_check
    rw [if_pos (by simp [hP, hE, hI])]
    exact ⟨rfl, rfl, rfl, rfl, rfl, rfl, rfl⟩
  · unfold risc_execute
    rw [if_neg hp, if_neg hq]
    unfold risc_execute_branch
    rw [if_pos ⟨hcond, hu, hb4, by simp [htI]⟩]
    exact ⟨htSPC, htSZ, htSN, htSC, htSV, rfl, rfl⟩

/-- Claim C3 (witness): a concrete interrupt entry (pending interrupt on `cpu0` with
interrupts enabled) and `IRET` (instruction word `0xC7000010`) from a concrete handler
state carrying the snapshot. -/
theorem c3_witness :
    ((risc_interrupt_check { cpu0 with P := true, E := true, C := true, PC := 7 }).SPC = 7 ∧
     (risc_interrupt_check { cpu0 with P := true, E := true, C := true, PC := 7 }).I = true ∧
     (risc_interrupt_check { cpu0 with P := true, E := true, C := true, PC := 7 }).PC = 1) ∧
    ((risc_execute { cpu0 with I := true, P := true, SPC := 7, SC := true, PC := 2 }
        0xC7000010).PC = 7 ∧
     (risc_execute { cpu0 with I := true, P := true, SPC := 7, SC := true, PC := 2 }
        0xC7000010).C = true ∧
     (risc_execute { cpu0 with I := true, P := true, SPC := 7, SC := true, PC := 2 }
        0xC7000010).I = false ∧
     (risc_execute { cpu0 with I := true, P := true, SPC := 7, SC := true, PC := 2 }
        0xC7000010).P = false) := by
  have h := c3_interrupt_roundtrip
    { cpu0 with P := true, E := true, C := true, PC := 7 }
    { cpu0 with I := true, P := true, SPC := 7, SC := true, PC := 2 }
    0xC7000010 rfl rfl rfl rfl rfl rfl rfl rfl rfl
    (by decide) (by decide) (by decide) (by decide) (by decide)
  obtain ⟨⟨hSPC, _, _, _, _, hIon, hPC1⟩, ⟨hPC, _, _, hC, _, hIoff, hPoff⟩⟩ := h
  exact ⟨⟨hSPC, hIon, hPC1⟩, ⟨hPC, hC, hIoff, hPoff⟩⟩

lemma reg_result_add (s : RISC) (ir : Nat) (hop : (ir &&& 0x000F0000) >>> 16 = 8) :
    risc_reg_result s ir =
      (let b_val := s.R ((ir &&& 0x00F00000) >>> 20)
       let c_val := risc_c_value s ir
       let sum0 := (b_val + c_val) % 4294967296
       let sum := if ir &&& 0x20000000 ≠ 0 then
                    (sum0 + (if s.C then 1 else 0)) % 4294967296
                  else sum0
       (sum, { s with C := decide (sum < b_val),
                      V := decide ((((sum ^^^ c_val) &&& (sum ^^^ b_val)) >>> 31) ≠ 0) })) := by
  unfold risc_reg_result
  rw [hop]

lemma reg_result_sub (s : RISC) (ir : Nat) (hop : (ir &&& 0x000F0000) >>> 16 = 9) :
    risc_reg_result s ir =
      (let b_val := s.R ((ir &&& 0x00F00000) >>> 20)
       let c_val := risc_c_value s ir
       let diff0 := (b_val + 4294967296 - c_val) % 4294967296
       let diff := if ir &&& 0x20000000 ≠ 0 then
                     (diff0 + 4294967296 - (if s.C then 1 else 0)) % 4294967296
                   else diff0
       (diff, { s with C := decide (diff > b_val),
                       V := decide ((((b_val ^^^ c_val) &&& (diff ^^^ b_val)) >>> 31) ≠ 0) })) := by
  unfold risc_reg_result
  rw [hop]

/-- Claim C2: every `ADD` sets `C := result < b` (unsigned) and `V` to the semantic
signed overflow, every `SUB` sets `C := result > b` (unsigned) and `V` to the signed
overflow of the subtraction; with the `u` bit the prior `C` flag joins the operation
(add-with-carry / subtract-with-borrow).  In particular the concrete scenario S1:
`ADD R[0],R[1],R[2]` with `R[1] = 0xFFFFFFFF`, `R[2] = 1` yields `R[0] = 0`, `Z = 1`,
`N = 0`, `C = 1`, `V = 0`. -/
theorem c2_add_sub_flags (s : RISC) (ir : Nat)
    (hp : ir &&& 0x80000000 = 0)
    (hb : s.R ((ir &&& 0x00F00000) >>> 20) < 4294967296)
    (hc : risc_c_value s ir < 4294967296) :
    (let b_val := s.R ((ir &&& 0x00F00000) >>> 20)
     let c_val := risc_c_value s ir
     let cin : Nat := if ir &&& 0x20000000 ≠ 0 ∧ s.C = true then 1 else 0
     ((ir &&& 0x000F0000) >>> 16 = 8 →
        (risc_execute s ir).R ((ir &&& 0x0F000000) >>> 24) = (b_val + c_val + cin) % 4294967296 ∧
        (risc_execute s ir).C = decide ((b_val + c_val + cin) % 4294967296 < b_val) ∧
        (risc_execute s ir).V = decide (toInt32 ((b_val + c_val + cin) % 4294967296)
                                          ≠ toInt32 b_val + toInt32 c_val + cin)) ∧
     ((ir &&& 0x000F0000) >>> 16 = 9 →
        (risc_execute s ir).R ((ir &&& 0x0F000000) >>> 24)
            = (b_val + 8589934592 - c_val - cin) % 4294967296 ∧
        (risc_execute s ir).C = decide ((b_val + 8589934592 - c_val - cin) % 4294967296 > b_val) ∧
        (risc_execute s ir).V = decide (toInt32 ((b_val + 8589934592 - c_val - cin) % 4294967296)
                                          ≠ toInt32 b_val - toInt32 c_val - cin))) ∧
    ((risc_execute { cpu0 with
        R := fun i => if i = 1 then 0xFFFFFFFF else if i = 2 then 1 else 0 } 0x00180002).R 0 = 0 ∧
     (risc_execute { cpu0 with
        R := fun i => if i = 1 then 0xFFFFFFFF else if i = 2 then 1 else 0 } 0x00180002).Z = true ∧
     (risc_execute { cpu0 with
        R := fun i => if i = 1 then 0xFFFFFFFF else if i = 2 then 1 else 0 } 0x00180002).N = false ∧
     (risc_execute { cpu0 with
        R := fun i => if i = 1 then 0xFFFFFFFF else if i = 2 then 1 else 0 } 0x00180002).C = true ∧
     (risc_execute { cpu0 with
        R := fun i => if i = 1 then 0xFFFFFFFF else if i = 2 then 1 else 0 } 0x00180002).V = false) := by
  have hexec : risc_execute s ir = risc_execute_reg s ir := by
    unfold risc_execute
    rw [if_pos hp]
  constructor
  · intro b_val c_val cin
    constructor
    · intro hop
      have hcin : cin ≤ 1 := by unfold cin; split <;> omega
      have hsum : (if ir &&& 0x20000000 ≠ 0 then
            (((b_val + c_val) % 4294967296) + (if s.C then 1 else 0)) % 4294967296
          else (b_val + c_val) % 4294967296) = (b_val + c_val + cin) % 4294967296 := by
        unfold cin
        by_cases hu : ir &&& 0x20000000 ≠ 0 <;> by_cases hC : s.C = true <;>
          simp [hu, hC]
      rw [hexec]
      unfold risc_execute_reg
      rw [reg_result_add s ir hop]
      simp only []
      rw [hsum]
      unfold risc_set_register
      refine ⟨by simp [updf], by simp, ?_⟩
      simp only []
      rw [overflow_add_eq b_val c_val cin hb hc hcin]
    · intro hop
      have hcin : cin ≤ 1 := by unfold cin; split <;> omega
      have hdiff : (if ir &&& 0x20000000 ≠ 0 then
            (((b_val + 4294967296 - c_val) % 4294967296) + 4294967296 -
              (if s.C then 1 else 0)) % 4294967296
          else (b_val + 4294967296 - c_val) % 4294967296)
          = (b_val + 8589934592 - c_val - cin) % 4294967296 := by
        unfold cin
        by_cases hu : ir &&& 0x20000000 ≠ 0 <;> by_cases hC : s.C = true <;>
          simp [hu, hC] <;> try omega
      rw [hexec]
      unfold risc_execute_reg
      rw [reg_result_sub s ir hop]
      simp only []
      rw [hdiff]
      unfold risc_set_register
      refine ⟨by simp [updf], by simp, ?_⟩
      simp only []
      rw [overflow_sub_eq b_val c_val cin hb hc hcin]
  · exact ⟨by decide, by decide, by decide, by decide, by decide⟩

/-- Claim C2 (witness): add-with-carry at concrete operands — `ADD` with `u` set
(instruction `0x20180002`), `R[1] = 5`, `R[2] = 7`, prior carry set, gives
`R[0] = 13 = 5 + 7 + 1` with carry and overflow clear. -/
theorem c2_witness :
    (risc_execute { cpu0 with
        C := true, R := fun i => if i = 1 then 5 else if i = 2 then 7 else 0 } 0x20180002).R 0 = 13 ∧
    (risc_execute { cpu0 with
        C := true, R := fun i => if i = 1 then 5 else if i = 2 then 7 else 0 } 0x20180002).C
      = decide ((13 : Nat) < 5) ∧
    (risc_execute { cpu0 with
        C := true, R := fun i => if i = 1 then 5 else if i = 2 then 7 else 0 } 0x20180002).V
      = decide (toInt32 13 ≠ toInt32 5 + toInt32 7 + 1) := by
  have h := ((c2_add_sub_flags { cpu0 with
      C := true, R := fun i => if i = 1 then 5 else if i = 2 then 7 else 0 } 0x20180002
      (by decide) (by decide) (by decide)).1).1 (by decide)
  exact ⟨h.1, h.2.1, h.2.2⟩

/-- Claim C4: a read-sector SPI command — six command bytes `0x51, b1, b2, b3, b4, crc`
with big-endian argument `arg` — moves the disk (fresh from `disk_new`, where the
`0x9B1EA38D` magic in sector 0 fixes the bias `0x80002`, else 0) into the Read state
and arms the response stream: one 0 byte, one 254 byte, then the 128 little-endian
words of the 512-byte sector at index `arg − offset_bias` (32-bit arithmetic). -/
theorem c4_read_sector (f : Nat → Nat) (b1 b2 b3 b4 b6 : Nat)
    (h1 : b1 < 256) (h2 : b2 < 256) (h3 : b3 < 256) (_h4 : b4 < 256) :
    (let bias : Nat := if sector_read_word f 0 0 = 0x9B1EA38D then 0x80002 else 0
     let arg : Nat := (b1 <<< 24) ||| (b2 <<< 16) ||| (b3 <<< 8) ||| b4
     let d6 := disk_writes (disk_new (some f)) [81, b1, b2, b3, b4, b6]
     (disk_new (some f)).state = DiskState.Command ∧
     (disk_new (some f)).rx_idx = 0 ∧
     (disk_new (some f)).offset = bias ∧
     d6.state = DiskState.Read ∧
     d6.tx_cnt = 130 ∧
     d6.tx_idx = -1 ∧
     d6.rx_idx = 0 ∧
     d6.tx_buf 0 = 0 ∧
     d6.tx_buf 1 = 254 ∧
     (∀ i, i < 128 →
        d6.tx_buf (2 + i) =
          sector_read_word f
            ((((arg + 4294967296 - bias) % 4294967296) * 512) % 4294967296) i)) := by
  intro bias arg d6
  have e1 : (b1 <<< 24) % 4294967296 = b1 <<< 24 := by
    rw [Nat.shiftLeft_eq]; omega
  have e2 : (b2 <<< 16) % 4294967296 = b2 <<< 16 := by
    rw [Nat.shiftLeft_eq]; omega
  have e3 : (b3 <<< 8) % 4294967296 = b3 <<< 8 := by
    rw [Nat.shiftLeft_eq]; omega
  have hd6 : d6 = { disk_run_command
      { disk_new (some f) with
        tx_idx := 6,
        rx_buf := updf (updf (updf (updf (updf (updf (fun _ => 0) 0 81) 1 b1) 2 b2) 3 b3)
          4 b4) 5 b6,
        rx_idx := 6 } with rx_idx := 0 } := by
    unfold d6
    simp only [disk_writes, disk_write, disk_new]
    norm_num [updf]
  refine ⟨rfl, rfl, rfl, ?_⟩
  rw [hd6]
  unfold disk_run_command
  norm_num [updf, e1, e2, e3]
  intro i hi
  rw [if_pos (by omega : 2 + i < 130)]
  unfold bias
  simp [disk_new]

/-- Claim C4 (witness): a concrete image starting with the little-endian magic
`8D A3 1E 9B` (so the bias is `0x80002`), read command `51 00 08 00 03 FF`
(logical sector `0x80003`, physical sector 1). -/
theorem c4_witness :
    (let f0 : Nat → Nat := fun p => if p = 0 then 141 else if p = 1 then 163
       else if p = 2 then 30 else if p = 3 then 155 else 0
     (disk_new (some f0)).offset = 524290 ∧
     (disk_writes (disk_new (some f0)) [81, 0, 8, 0, 3, 255]).state = DiskState.Read ∧
     (disk_writes (disk_new (some f0)) [81, 0, 8, 0, 3, 255]).tx_buf 1 = 254 ∧
     (disk_writes (disk_new (some f0)) [81, 0, 8, 0, 3, 255]).tx_buf 2 =
       sector_read_word f0
         (((((0 <<< 24) ||| (8 <<< 16) ||| (0 <<< 8) ||| 3) + 4294967296 -
             (if sector_read_word f0 0 0 = 0x9B1EA38D then 0x80002 else 0)) % 4294967296)
           * 512 % 4294967296) 0) := by
  intro f0
  have h := c4_read_sector f0 0 8 0 3 255
    (by norm_num) (by norm_num) (by norm_num) (by norm_num)
  refine ⟨?_, h.2.2.2.1, h.2.2.2.2.2.2.2.2.1, h.2.2.2.2.2.2.2.2.2 0 (by norm_num)⟩
  rw [h.2.2.1]
  decide

lemma store_port_mode (s : RISC) (value : Nat) :
    risc_store_port s 0xFFFFFFF0 value = risc_mode_switch s value := by
  unfold risc_store_port
  rw [if_neg (by norm_num [PaletteStart])]
  rw [show (0xFFFFFFF0 + 4294967296 - IOStart) % 4294967296 = 48 from by
    norm_num [IOStart]]

/-- Claim C7 (counterexample): with `screen_dynsize` enabled and no installed mode
matching, the encoded dynamic mode `1 × 64 × 2046` (1-bit depth, width 64 — a multiple
of 32 — height 2046 ≤ 2048) is rejected by the code, whose height bound is 2045, not
the claimed 2048: the MMIO write at port offset 48 leaves the current mode unchanged. -/
theorem c7_counterexample :
    ((1075841022 >>> 30) = 1 ∧ ((1075841022 >>> 15) &&& 0x7FFF) = 64 ∧
     (1075841022 &&& 0x7FFF) = 2046 ∧ (64 : Nat) % 32 = 0 ∧ (64 : Nat) ≤ 2048 ∧
     (2046 : Nat) ≤ 2048) ∧
    ({ cpu0 with screen_dynsize := true } : RISC).screen_dynsize = true ∧
    find_mode ({ cpu0 with screen_dynsize := true } : RISC).modes 1075841022 = none ∧
    (risc_store_port { cpu0 with screen_dynsize := true } 0xFFFFFFF0 1075841022).current_mode
        = cpu0.current_mode ∧
    cpu0.current_mode ≠ (⟨1075841022, 64, 2046, 1⟩ : DisplayMode) := by
  decide

/-- Claim C7 (amended): when `screen_dynsize` is enabled, a mode-switch MMIO write
(port offset 48) matches no installed mode index, and the encoded width and height are
not both zero, the dynamic mode (top 2 bits depth selector, 15-bit width, 15-bit
height) is accepted exactly when the selector is 1-3, the width is a multiple of 32
and at most 2048, and the height is at most 2045 (not 2048); an accepted value updates
`current_mode` (installing it in `dyn_mode_slots[0]`) and the span, a rejected value
leaves the current mode and span unchanged. -/
theorem c7_dynamic_mode (s : RISC) (value : Nat)
    (hdyn : s.screen_dynsize = true)
    (hfind : find_mode s.modes value = none)
    (hnz : ¬((value >>> 15) &&& 0x7FFF = 0 ∧ value &&& 0x7FFF = 0)) :
    (let md := value >>> 30
     let w0 := (value >>> 15) &&& 0x7FFF
     let h0 := value &&& 0x7FFF
     let dep := if md = 1 then 1 else if md = 2 then 8 else 4
     let s2 := risc_store_port s 0xFFFFFFF0 value
     ((w0 ≤ 2048 ∧ w0 % 32 = 0 ∧ h0 ≤ 2045 ∧ 1 ≤ md ∧ md ≤ 3) →
        s2.current_mode = ⟨value, w0, h0, dep⟩ ∧
        s2.dyn_slot0 = (⟨value, w0, h0, dep⟩ : DisplayMode) ∧
        s2.current_mode_span = w0 / (32 / dep)) ∧
     (¬(w0 ≤ 2048 ∧ w0 % 32 = 0 ∧ h0 ≤ 2045 ∧ 1 ≤ md ∧ md ≤ 3) →
        s2.current_mode = s.current_mode ∧
        s2.current_mode_span = s.current_mode_span)) := by
  intro md w0 h0 dep s2
  have hs2 : s2 = risc_mode_accept { s with screen_seamless := false } value md w0 h0 := by
    unfold s2
    rw [store_port_mode]
    unfold risc_mode_switch
    rw [hfind]
    simp only []
    rw [if_pos (by simpa using hdyn), if_neg hnz]
  constructor
  · intro hacc
    rw [hs2]
    unfold risc_mode_accept
    rw [if_pos hacc]
    exact ⟨rfl, rfl, rfl⟩
  · intro hrej
    rw [hs2]
    unfold risc_mode_accept
    rw [if_neg hrej]
    exact ⟨rfl, rfl⟩

/-- Claim C7 (witness): with dynamic sizing on the default state, the encoded mode
`1 × 64 × 600` is accepted (span 2), while `1 × 64 × 2046` is rejected and keeps the
1024×768 mode current. -/
theorem c7_witness :
    ((risc_store_port { cpu0 with screen_dynsize := true } 0xFFFFFFF0
        ((1 <<< 30) ||| (64 <<< 15) ||| 600)).current_mode
      = (⟨(1 <<< 30) ||| (64 <<< 15) ||| 600, 64, 600, 1⟩ : DisplayMode)) ∧
    ((risc_store_port { cpu0 with screen_dynsize := true } 0xFFFFFFF0
        ((1 <<< 30) ||| (64 <<< 15) ||| 600)).current_mode_span = 2) ∧
    ((risc_store_port { cpu0 with screen_dynsize := true } 0xFFFFFFF0
        1075841022).current_mode = ({ cpu0 with screen_dynsize := true } : RISC).current_mode) := by
  have ha := c7_dynamic_mode { cpu0 with screen_dynsize := true }
    ((1 <<< 30) ||| (64 <<< 15) ||| 600) (by decide) (by decide) (by decide)
  have hr := c7_dynamic_mode { cpu0 with screen_dynsize := true }
    1075841022 (by decide) (by decide) (by decide)
  refine ⟨?_, ?_, (hr.2 (by decide)).1⟩
  · exact (ha.1 (by decide)).1
  · exact (ha.1 (by decide)).2.2

lemma findSlotFrom_eq_none (names : Nat → Option String) (size : Nat) (fn : String) :
    ∀ (n i : Nat), size - i ≤ n → (∀ j, i ≤ j → j < size → names j ≠ some fn) →
      findSlotFrom names size fn i = none := by
  intro n
  induction n with
  | zero =>
    intro i hn _hj
    unfold findSlotFrom
    rw [dif_neg (by omega)]
  | succ n ih =>
    intro i hn hj
    unfold findSlotFrom
    split
    · rename_i hlt
      rw [if_neg (hj i le_rfl hlt)]
      exact ih (i + 1) (by omega) (fun j h1 h2 => hj j (by omega) h2)
    · rfl

lemma findSlotFrom_eq_some (names : Nat → Option String) (size : Nat) (fn : String) :
    ∀ (n i k : Nat), k - i ≤ n → i ≤ k → k < size → names k = some fn →
      (∀ j, i ≤ j → j < k → names j ≠ some fn) →
      findSlotFrom names size fn i = some k := by
  intro n
  induction n with
  | zero =>
    intro i k hn hik hks hk _hj
    have hik' : i = k := by omega
    subst hik'
    unfold findSlotFrom
    rw [dif_pos hks, if_pos hk]
  | succ n ih =>
    intro i k hn hik hks hk hj
    by_cases hik' : i = k
    · subst hik'
      unfold findSlotFrom
      rw [dif_pos hks, if_pos hk]
    · unfold findSlotFrom
      rw [dif_pos (by omega), if_neg (hj i le_rfl (by omega))]
      exact ih (i + 1) k (by omega) (by omega) hks hk (fun j h1 h2 => hj j (by omega) h2)

/-- Claim C9: host-FS insert/search round trip.  For a slot `k` whose stored guest
name is a tombstone (starts with `~`), op 4 (Insert) at sector `MAGIC + k` with a new
name — one no other slot holds — followed by op 0 (Search) with that name returns the
same sector `MAGIC + k`; and Insert is a no-op (table and host both unchanged) when
the referenced slot's name does not start with `~`.  (`fs.size ≤ 4096` is the C table
bound `MAX_HOSTFS_FILES`; the length bound is the `snprintf` check.) -/
theorem c9_insert_search_roundtrip (fs : HostFS) (host : String → Bool) (k : Nat)
    (t newname tmpname : String)
    (fs2 : HostFS) (host2 : String → Bool) (sw : Nat) (t2 nm2 tmp2 : String)
    (hsz : fs.size ≤ 4096)
    (hk : k < fs.size)
    (ht : fs.names k = some t)
    (htilde : first_char_tilde t = true)
    (hnew : ∀ j, j < fs.size → fs.names j ≠ some newname)
    (hlen : fs.dirname.length + 1 + newname.length < 256)
    (ht2 : fs2.names ((sw + 4294967296 - 290000000) % 4294967296) = some t2)
    (ht2n : first_char_tilde t2 = false) :
    (hostfs_search_file (hostfs_insert fs host (290000000 + k) newname tmpname).1
        (hostfs_insert fs host (290000000 + k) newname tmpname).2 newname).1
      = 290000000 + k ∧
    hostfs_insert fs2 host2 sw nm2 tmp2 = (fs2, host2) := by
  constructor
  · have hsec : (290000000 + k + 4294967296 - 290000000) % 4294967296 = k := by omega
    have hfind_none : findSlotFrom fs.names fs.size newname 0 = none :=
      findSlotFrom_eq_none fs.names fs.size newname fs.size 0 (by omega)
        (fun j _ h2 => hnew j h2)
    have hfst : (hostfs_insert fs host (290000000 + k) newname tmpname).1 =
        { fs with names := updSlot fs.names k (some newname),
                  fullnames := updSlot fs.fullnames k
                    (some (fs.dirname ++ "/" ++ newname)) } := by
      unfold hostfs_insert
      simp only [hsec, ht]
      rw [if_pos ⟨hk, htilde, hlen⟩]
      by_cases hh : host (fs.dirname ++ "/" ++ newname) = true
      · simp only [hh, hfind_none]
        rfl
      · simp only [hh]
        rfl
    have hsome : findSlotFrom (updSlot fs.names k (some newname)) fs.size newname 0
        = some k := by
      apply findSlotFrom_eq_some _ _ _ k 0 k (by omega) (by omega) hk
      · simp [updSlot]
      · intro j _ hjk
        simp only [updSlot]
        rw [if_neg (by omega)]
        exact hnew j (by omega)
    rw [hfst]
    unfold hostfs_search_file
    simp only []
    rw [hsome]
  · unfold hostfs_insert
    simp only [ht2]
    rw [if_neg (by simp [ht2n])]

/-- Claim C9 (witness): a concrete two-slot table (`X` live at slot 0, tombstone
`~Del` at slot 1) over a host containing both files: inserting `Y` at sector
`MAGIC + 1` then searching `Y` yields `MAGIC + 1`, and inserting over the live slot 0
is a no-op. -/
theorem c9_witness :
    (hostfs_search_file
        (hostfs_insert
          { dirname := "d",
            names := fun j => if j = 0 then some "X" else if j = 1 then some "~Del" else none,
            fullnames := fun j => if j = 0 then some "d/X"
              else if j = 1 then some "d/~Del" else none,
            size := 2 }
          (fun p => p == "d/X" || p == "d/~Del") 290000001 "Y" "d/~OvW~123456").1
        (hostfs_insert
          { dirname := "d",
            names := fun j => if j = 0 then some "X" else if j = 1 then some "~Del" else none,
            fullnames := fun j => if j = 0 then some "d/X"
              else if j = 1 then some "d/~Del" else none,
            size := 2 }
          (fun p => p == "d/X" || p == "d/~Del") 290000001 "Y" "d/~OvW~123456").2 "Y").1
      = 290000001 ∧
    hostfs_insert
        { dirname := "d",
          names := fun j => if j = 0 then some "X" else if j = 1 then some "~Del" else none,
          fullnames := fun j => if j = 0 then some "d/X"
            else if j = 1 then some "d/~Del" else none,
          size := 2 }
        (fun p => p == "d/X" || p == "d/~Del") 290000000 "Z" "d/~OvW~123456"
      = ({ dirname := "d",
           names := fun j => if j = 0 then some "X" else if j = 1 then some "~Del" else none,
           fullnames := fun j => if j = 0 then some "d/X"
             else if j = 1 then some "d/~Del" else none,
           size := 2 },
         (fun p => p == "d/X" || p == "d/~Del")) := by
  have h := c9_insert_search_roundtrip
    { dirname := "d",
      names := fun j => if j = 0 then some "X" else if j = 1 then some "~Del" else none,
      fullnames := fun j => if j = 0 then some "d/X"
        else if j = 1 then some "d/~Del" else none,
      size := 2 }
    (fun p => p == "d/X" || p == "d/~Del") 1 "~Del" "Y" "d/~OvW~123456"
    { dirname := "d",
      names := fun j => if j = 0 then some "X" else if j = 1 then some "~Del" else none,
      fullnames := fun j => if j = 0 then some "d/X"
        else if j = 1 then some "d/~Del" else none,
      size := 2 }
    (fun p => p == "d/X" || p == "d/~Del") 290000000 "X" "Z" "d/~OvW~123456"
    (by norm_num) (by norm_num) (by norm_num) (by decide)
    (by decide) (by decide) (by norm_num) (by decide)
  exact h

lemma Int_neg_tmod (a b : Int) : (-a).tmod b = -(a.tmod b) := by
  rw [Int.tmod_def, Int.tmod_def, Int.neg_tdiv]
  ring

lemma ofInt32_cast (z : Int) (h1 : 0 ≤ z) (h2 : z < 4294967296) :
    ((ofInt32 z : Nat) : Int) = z := by
  unfold ofInt32; omega

lemma ofInt32_pred (z : Int) :
    (ofInt32 z + 4294967296 - 1) % 4294967296 = ofInt32 (z - 1) := by
  unfold ofInt32; omega

lemma ofInt32_add_nat (z : Int) (n : Nat) :
    (ofInt32 z + n) % 4294967296 = ofInt32 (z + n) := by
  unfold ofInt32; omega

lemma reg_result_div (s : RISC) (ir : Nat) (hop : (ir &&& 0x000F0000) >>> 16 = 11) :
    risc_reg_result s ir =
      (let b_val := s.R ((ir &&& 0x00F00000) >>> 20)
       let c_val := risc_c_value s ir
       if 0 < toInt32 c_val then
         if ir &&& 0x20000000 = 0 then
           let a0 := ofInt32 (Int.tdiv (toInt32 b_val) (toInt32 c_val))
           let h0 := ofInt32 (Int.tmod (toInt32 b_val) (toInt32 c_val))
           if toInt32 h0 < 0 then
             ((a0 + 4294967296 - 1) % 4294967296, { s with H := (h0 + c_val) % 4294967296 })
           else (a0, { s with H := h0 })
         else (b_val / c_val, { s with H := b_val % c_val })
       else
         let q := idiv b_val c_val (ir &&& 0x20000000 ≠ 0)
         (q.1, { s with H := q.2 })) := by
  unfold risc_reg_result
  rw [hop]

/-- The signed `DIV` arm (`u` clear) produces, for a nonzero divisor other than the
unrepresentable pair `(-2^31, -1)`, exactly the Euclidean quotient and non-negative
remainder, both within the signed 32-bit range (for a negative divisor through the
spec-modelled `idiv`). -/
lemma div_signed_euclid (s : RISC) (ir : Nat)
    (hop : (ir &&& 0x000F0000) >>> 16 = 11)
    (hu : ir &&& 0x20000000 = 0)
    (hb : s.R ((ir &&& 0x00F00000) >>> 20) < 4294967296)
    (hc : risc_c_value s ir < 4294967296)
    (hcnz : toInt32 (risc_c_value s ir) ≠ 0)
    (hcorner : ¬(s.R ((ir &&& 0x00F00000) >>> 20) = 2147483648 ∧
                 risc_c_value s ir = 4294967295)) :
    ∃ (q r : Int),
      toInt32 (s.R ((ir &&& 0x00F00000) >>> 20)) = q * toInt32 (risc_c_value s ir) + r ∧
      0 ≤ r ∧ r < ((toInt32 (risc_c_value s ir)).natAbs : Int) ∧
      -2147483648 ≤ q ∧ q < 2147483648 ∧
      risc_reg_result s ir = (ofInt32 q, { s with H := ofInt32 r }) := by
  set b_val := s.R ((ir &&& 0x00F00000) >>> 20) with hbv
  set c_val := risc_c_value s ir with hcv
  set bi := toInt32 b_val with hbi
  set ci := toInt32 c_val with hci
  have hbi_b := toInt32_bounds b_val hb
  have hci_b := toInt32_bounds c_val hc
  rcases lt_trichotomy ci 0 with hneg | hzero | hpos
  · -- negative divisor: the spec-modelled idiv (Euclidean division)
    have hcne : ci ≠ 0 := by omega
    have habs : |ci| = -ci := abs_of_neg hneg
    have he0 : 0 ≤ bi % ci := Int.emod_nonneg bi hcne
    have hrabs : bi % ci < -ci := by
      have h := Int.emod_lt bi hcne
      omega
    have hid : ci * (bi / ci) + bi % ci = bi := Int.ediv_add_emod bi ci
    have hrr : risc_reg_result s ir =
        (ofInt32 (bi / ci), { s with H := ofInt32 (bi % ci) }) := by
      rw [reg_result_div s ir hop]
      simp only []
      rw [← hcv, ← hbv, ← hci, ← hbi]
      rw [if_neg (by omega)]
      unfold idiv
      simp only [hu]
      norm_num
      rw [if_neg hcnz]
      exact ⟨rfl, rfl⟩
    set q := bi / ci with hq
    set r := bi % ci with hr
    have hqlow : -2147483648 ≤ q := by
      by_contra hql
      push_neg at hql
      have hq0 : q ≤ 0 := by omega
      have ha : (-ci - 1) * q ≤ 0 := mul_nonpos_of_nonneg_of_nonpos (by omega) hq0
      have hb' : (-ci - 1) * q = -(ci * q) - q := by ring
      omega
    have hqhigh : q < 2147483648 := by
      by_contra hqh
      push_neg at hqh
      have ha : (-ci) * 2147483648 ≤ (-ci) * q :=
        mul_le_mul_of_nonneg_left hqh (by omega)
      have hb' : (-ci) * q = -(ci * q) := by ring
      have hd1' : -ci ≤ 1 := by
        by_contra hdg
        push_neg at hdg
        have h2 : (1 : Int) * 2147483648 ≤ (-ci - 1) * 2147483648 :=
          mul_le_mul_of_nonneg_right (by omega) (by norm_num)
        have h3 : (-ci - 1) * 2147483648 = (-ci) * 2147483648 - 2147483648 := by ring
        omega
      have hcim1 : ci = -1 := by omega
      rw [hcim1] at hid hrabs
      apply hcorner
      constructor
      · have hbival : toInt32 b_val = -2147483648 := by rw [← hbi]; omega
        unfold toInt32 at hbival
        split at hbival <;> omega
      · have hcival : toInt32 c_val = -1 := by rw [← hci]; exact hcim1
        unfold toInt32 at hcival
        split at hcival <;> omega
    refine ⟨q, r, ?_, he0, by omega, hqlow, hqhigh, hrr⟩
    have hcomm : q * ci = ci * q := by ring
    omega
  · exact absurd hzero hcnz
  · -- positive divisor: the C truncating division with remainder fix-up
    have hcpos' : (0 : Int) ≤ ci := le_of_lt hpos
    have hcval : (c_val : Int) = ci := by
      have hclt : c_val < 2147483648 := by
        by_contra hcl
        push_neg at hcl
        rw [hci] at hpos
        unfold toInt32 at hpos
        rw [if_neg (by omega)] at hpos
        omega
      rw [hci]
      unfold toInt32
      rw [if_pos hclt]
    rcases le_or_lt 0 bi with hbge | hblt
    · -- non-negative dividend: plain division, remainder already non-negative
      have ht1 : Int.tmod bi ci = bi % ci := Int.tmod_eq_emod hbge hcpos'
      have ht2 : Int.tdiv bi ci = bi / ci := Int.tdiv_eq_ediv hbge hcpos'
      have he0 : 0 ≤ bi % ci := Int.emod_nonneg bi (by omega)
      have helt : bi % ci < ci := Int.emod_lt_of_pos bi hpos
      have hid : ci * (bi / ci) + bi % ci = bi := Int.ediv_add_emod bi ci
      have hrr : risc_reg_result s ir =
          (ofInt32 (bi / ci), { s with H := ofInt32 (bi % ci) }) := by
        rw [reg_result_div s ir hop]
        simp only []
        rw [← hcv, ← hbv, ← hci, ← hbi]
        rw [if_pos hpos, if_pos hu, ht1, ht2]
        rw [if_neg (by rw [toInt32_ofInt32 _ (by omega) (by omega)]; omega)]
      refine ⟨bi / ci, bi % ci, ?_, he0, by omega, ?_, ?_, hrr⟩
      · have hcomm : (bi / ci) * ci = ci * (bi / ci) := by ring
        omega
      · have := Int.ediv_nonneg hbge hcpos'
        omega
      · have := Int.ediv_le_self ci hbge
        omega
    · -- negative dividend: remainder is negative unless zero; fix-up applies
      have hmb : (0 : Int) ≤ -bi := by omega
      have ht1 : Int.tmod bi ci = -((-bi) % ci) := by
        have h := Int_neg_tmod (-bi) ci
        rw [neg_neg] at h
        rw [h, Int.tmod_eq_emod hmb hcpos']
      have ht2 : Int.tdiv bi ci = -((-bi) / ci) := by
        have h := Int.neg_tdiv (-bi) ci
        rw [neg_neg] at h
        rw [h, Int.tdiv_eq_ediv hmb hcpos']
      have he0 : 0 ≤ (-bi) % ci := Int.emod_nonneg _ (by omega)
      have helt : (-bi) % ci < ci := Int.emod_lt_of_pos _ hpos
      have hid : ci * ((-bi) / ci) + (-bi) % ci = -bi := Int.ediv_add_emod _ _
      have hm0 : 0 ≤ (-bi) / ci := Int.ediv_nonneg hmb hcpos'
      have hmle : (-bi) / ci ≤ -bi := Int.ediv_le_self ci hmb
      set m := (-bi) / ci with hm
      set e := (-bi) % ci with he
      rcases eq_or_lt_of_le he0 with heq | hgt
      · -- remainder exactly zero: no fix-up
        have hrr : risc_reg_result s ir = (ofInt32 (-m), { s with H := ofInt32 0 }) := by
          rw [reg_result_div s ir hop]
          simp only []
          rw [← hcv, ← hbv, ← hci, ← hbi]
          rw [if_pos hpos, if_pos hu, ht1, ht2]
          rw [show (-e : Int) = 0 from by omega]
          rw [if_neg (by rw [toInt32_ofInt32 0 (by norm_num) (by norm_num)]; norm_num)]
        refine ⟨-m, 0, ?_, le_rfl, by omega, ?_, by omega, hrr⟩
        · have hcomm : -m * ci = -(ci * m) := by ring
          omega
        · omega
      · -- strictly negative remainder: quotient decremented, remainder increased
        have hmul : (ci - 1) * m = ci * m - m := by ring
        have hmnn : 0 ≤ (ci - 1) * m := mul_nonneg (by omega) hm0
        have hmle2 : m ≤ 2147483647 := by omega
        have hrr : risc_reg_result s ir =
            (ofInt32 (-m - 1), { s with H := ofInt32 (ci - e) }) := by
          rw [reg_result_div s ir hop]
          simp only []
          rw [← hcv, ← hbv, ← hci, ← hbi]
          rw [if_pos hpos, if_pos hu, ht1, ht2]
          rw [if_pos (by rw [toInt32_ofInt32 _ (by omega) (by omega)]; omega)]
          rw [ofInt32_pred, ofInt32_add_nat]
          rw [show -e + (c_val : Int) = ci - e from by rw [hcval]; ring]
        refine ⟨-m - 1, ci - e, ?_, by omega, by omega, by omega, by omega, hrr⟩
        have hcomm : (-m - 1) * ci = -(ci * m) - ci := by ring
        omega


/-- Claim C1 (counterexample): at dividend `-2^31` (`0x80000000`) and divisor `-1`
(`0xFFFFFFFF`) the Euclidean quotient `2^31` is not representable in 32 bits: the
quotient register reads back as `-2^31`, so `b = quotient·c + remainder` fails for
this one signed-DIV input even though the divisor is nonzero. -/
theorem c1_counterexample :
    (let s := { cpu0 with
       R := fun i => if i = 1 then 0x80000000 else if i = 2 then 0xFFFFFFFF else 0 }
     toInt32 (risc_c_value s 0x001B0002) ≠ 0 ∧
     ¬ (toInt32 (s.R 1)
          = toInt32 ((risc_execute s 0x001B0002).R 0) * toInt32 (risc_c_value s 0x001B0002)
            + ((risc_execute s 0x001B0002).H : Int))) := by
  constructor
  · decide
  · decide

/-- Claim C1 (amended): for every signed `DIV` (`u` clear) with dividend `b` and
nonzero divisor `c`, except the single unrepresentable pair `b = -2^31, c = -1`, the
quotient written to `R[a]` and the remainder written to `H` satisfy
`b = quotient·c + remainder` with `0 ≤ remainder < |c|` (Euclidean division with
non-negative remainder; when the plain C remainder is negative the quotient is
decremented and the remainder increased by the divisor).  The negative-divisor branch
goes through `idiv`, modelled from the spec. -/
theorem c1_signed_div (s : RISC) (ir : Nat)
    (hp : ir &&& 0x80000000 = 0)
    (hop : (ir &&& 0x000F0000) >>> 16 = 11)
    (hu : ir &&& 0x20000000 = 0)
    (hb : s.R ((ir &&& 0x00F00000) >>> 20) < 4294967296)
    (hc : risc_c_value s ir < 4294967296)
    (hcnz : toInt32 (risc_c_value s ir) ≠ 0)
    (hcorner : ¬(s.R ((ir &&& 0x00F00000) >>> 20) = 2147483648 ∧
                 risc_c_value s ir = 4294967295)) :
    toInt32 (s.R ((ir &&& 0x00F00000) >>> 20))
      = toInt32 ((risc_execute s ir).R ((ir &&& 0x0F000000) >>> 24))
          * toInt32 (risc_c_value s ir)
        + ((risc_execute s ir).H : Int) ∧
    ((risc_execute s ir).H : Int) < ((toInt32 (risc_c_value s ir)).natAbs : Int) := by
  obtain ⟨q, r, hqr, hr0, hrlt, hq1, hq2, hpair⟩ :=
    div_signed_euclid s ir hop hu hb hc hcnz hcorner
  have hexec : risc_execute s ir = risc_execute_reg s ir := by
    unfold risc_execute
    rw [if_pos hp]
  have hrb : r < 4294967296 := by
    have := toInt32_bounds (risc_c_value s ir) hc
    omega
  rw [hexec]
  unfold risc_execute_reg
  rw [hpair]
  simp only [risc_set_register, updf]
  constructor
  · simp only [if_true]
    rw [toInt32_ofInt32 q hq1 hq2, ofInt32_cast r hr0 hrb]
    linarith [hqr]
  · rw [ofInt32_cast r hr0 hrb]
    exact hrlt

/-- Claim C1 (witness): the spec's scenario S2 — `R[1] = -7`, `R[2] = 3`,
`DIV R[0],R[1],R[2]` signed — satisfies the Euclidean identity (`R[0] = -3`,
`H = 2`), via the theorem applied at that concrete state. -/
theorem c1_witness :
    (let s := { cpu0 with
       R := fun i => if i = 1 then 0xFFFFFFF9 else if i = 2 then 3 else 0 }
     toInt32 (s.R 1)
       = toInt32 ((risc_execute s 0x001B0002).R 0) * toInt32 (risc_c_value s 0x001B0002)
         + ((risc_execute s 0x001B0002).H : Int) ∧
     ((risc_execute s 0x001B0002).H : Int)
       < ((toInt32 (risc_c_value s 0x001B0002)).natAbs : Int)) := by
  intro s
  exact c1_signed_div s 0x001B0002 (by decide) (by decide) (by decide)
    (by decide) (by decide) (by decide) (by decide)

end Oberon
